/-
Verification of the PlayChess backend (src/backend) against its
natural-language specification.

Shallow embedding notes:

* `game_manager.py` delegates all chess rules to the external `python-chess`
  library (the spec's "Position Codec", an external collaborator).  The
  capabilities the backend uses are captured by the `Rules` structure; a
  concrete small instance (`toyRules`) is used to evaluate the embedded code
  on explicit inputs.  The boards handled by the backend are always
  reconstructed from a FEN string (`chess.Board(game.board_fen)`), so a
  `Rules` board value models a parsed-position state; every predicate the
  backend calls is a pure function of that state.
* Python `dict` assignment (`self.games[game_id] = state`) is modelled by
  prepending to an association list; `List.lookup` returns the most recent
  binding, which matches dict overwrite semantics for every lookup the
  backend performs.
* Python exceptions that the backend catches (`chess.Board(fen)` and
  `chess.Move.from_uci` raising on bad input inside `apply_move`'s
  `try/except`) are modelled by `Option` results; exceptions that escape to
  the HTTP layer are modelled with `Except String`.
* Python floating point arithmetic in `stockfish_engine.py` is modelled by
  exact rational arithmetic over `ℚ`; `int(x)` (truncation toward zero) is
  modelled by `pyInt`.
-/
import Mathlib

namespace PlayChess

/-- The chess capabilities of the external `python-chess` library that
`game_manager.py` uses, over an abstract board type `B` and move type `M`.
`fromFen`/`parseUci` return `none` where the library raises (caught by
`apply_move`'s `try/except`). -/
structure Rules (B M : Type) where
  initialBoard : B
  fen : B → String
  fromFen : String → Option B
  parseUci : String → Option M
  legalMoves : B → List M
  push : B → M → B
  turnWhite : B → Bool
  isCheckmate : B → Bool
  isStalemate : B → Bool
  isInsufficientMaterial : B → Bool
  canClaimFiftyMoves : B → Bool
  canClaimThreefoldRepetition : B → Bool
  uciOf : M → String

/-- `GameState` dataclass of `game_manager.py` (same fields, same names).
Note: the dataclass defines `bot_elo`; there is no `bot_level` attribute. -/
structure GameState where
  game_id : String
  board_fen : String
  player_color : String
  bot_elo : Int
  move_history : List String
  status : String
  winner : Option String
  current_turn : String
  created_at : String
  last_move : Option String
deriving DecidableEq, Repr

/-- `GameManager.games`: the in-memory `Dict[str, GameState]`, modelled as an
association list where the head is the most recent binding. -/
structure GameManager where
  games : List (String × GameState)
deriving DecidableEq, Repr

/-- `GameManager.MIN_ELO` (also `StockfishEngine.MIN_ELO`). -/
def MIN_ELO : Int := 1320

/-- `GameManager.MAX_ELO` (also `StockfishEngine.MAX_ELO`). -/
def MAX_ELO : Int := 3000

/-- `GameManager.get_game`. -/
def get_game (gm : GameManager) (game_id : String) : Option GameState :=
  List.lookup game_id gm.games

/-- `GameManager.create_game` (game_manager.py lines 46-83).  The uuid and the
timestamp are environment inputs, passed as `game_id` / `created_at`.
Raising `ValueError` for a bad `player_color` is modelled by `.error`. -/
def create_game {B M : Type} (R : Rules B M) (gm : GameManager)
    (game_id created_at : String) (player_color : String) (bot_elo : Int) :
    Except String (GameState × GameManager) :=
  if player_color = "white" ∨ player_color = "black" then
    let elo := max MIN_ELO (min MAX_ELO bot_elo)
    let g : GameState :=
      { game_id := game_id
        board_fen := R.fen R.initialBoard
        player_color := player_color
        bot_elo := elo
        move_history := []
        status := "ongoing"
        winner := none
        current_turn := "white"
        created_at := created_at
        last_move := none }
    .ok (g, ⟨(game_id, g) :: gm.games⟩)
  else
    .error "player_color must be white or black"

/-- `GameManager._update_game_status` (game_manager.py lines 141-171):
first-match over checkmate, stalemate, insufficient material, fifty-move
claimable, threefold claimable; otherwise `ongoing` (winner untouched). -/
def update_game_status {B M : Type} (R : Rules B M) (game : GameState) (board : B) :
    GameState :=
  if R.isCheckmate board then
    { game with status := "checkmate"
                winner := some (if R.turnWhite board then "black" else "white") }
  else if R.isStalemate board then
    { game with status := "stalemate", winner := none }
  else if R.isInsufficientMaterial board then
    { game with status := "draw", winner := none }
  else if R.canClaimFiftyMoves board then
    { game with status := "draw", winner := none }
  else if R.canClaimThreefoldRepetition board then
    { game with status := "draw", winner := none }
  else
    { game with status := "ongoing" }

/-- `GameManager.apply_move` (game_manager.py lines 97-139).  Returns the
success flag together with the manager after the call.  Note that the source
performs no check of `game.status`: the only rejections are unknown id, a
`try/except`-caught parse failure, and a move outside `board.legal_moves`. -/
def apply_move {B M : Type} [DecidableEq M] (R : Rules B M) (gm : GameManager)
    (game_id move_uci : String) : Bool × GameManager :=
  match List.lookup game_id gm.games with
  | none => (false, gm)
  | some game =>
    match R.fromFen game.board_fen with
    | none => (false, gm)
    | some board =>
      match R.parseUci move_uci with
      | none => (false, gm)
      | some move =>
        if move ∈ R.legalMoves board then
          let board1 := R.push board move
          let game1 : GameState :=
            { game with
                board_fen := R.fen board1
                move_history := game.move_history ++ [move_uci]
                last_move := some move_uci
                current_turn := if R.turnWhite board1 then "white" else "black" }
          (true, ⟨(game_id, update_game_status R game1 board1) :: gm.games⟩)
        else
          (false, gm)

/-- `GameManager.get_legal_moves` (game_manager.py lines 173-188).  The source
reconstructs the board with `chess.Board(game.board_fen)` without a
`try/except`; a parse failure cannot occur for stored FENs, modelled by
returning `[]` as for a missing game. -/
def get_legal_moves {B M : Type} (R : Rules B M) (gm : GameManager)
    (game_id : String) : List String :=
  match List.lookup game_id gm.games with
  | none => []
  | some game =>
    match R.fromFen game.board_fen with
    | none => []
    | some board => (R.legalMoves board).map R.uciOf

/-- The game managers reachable by any sequence of `create_game` and
`apply_move` calls from the empty registry. -/
inductive Reachable {B M : Type} [DecidableEq M] (R : Rules B M) : GameManager → Prop
  | empty : Reachable R ⟨[]⟩
  | create {gm : GameManager} {gid ts color : String} {elo : Int}
      {g : GameState} {gm' : GameManager} :
      Reachable R gm → create_game R gm gid ts color elo = .ok (g, gm') →
      Reachable R gm'
  | step {gm : GameManager} (gid uci : String) :
      Reachable R gm → Reachable R (apply_move R gm gid uci).2

/-- A small concrete instance of the external rules engine, used to run the
embedded backend code on explicit inputs.  It mirrors real chess facts:
board `B0` is the initial position with two legal moves; `m1` leads to `B1`,
a drawn position (insufficient material, e.g. bare kings) that still has a
legal move `m2`; `mC` leads to `BC`, a checkmate with no legal moves. -/
def toyRules : Rules String String where
  initialBoard := "B0"
  fen := id
  fromFen := some
  parseUci s := if s = "bad" then none else some s
  legalMoves b :=
    if b = "B0" then ["m1", "mC"] else if b = "B1" then ["m2"] else []
  push _ m :=
    if m = "m1" then "B1" else if m = "mC" then "BC"
    else if m = "m2" then "B2" else "BX"
  turnWhite b := b == "B0" || b == "B2"
  isCheckmate b := b == "BC"
  isStalemate _ := false
  isInsufficientMaterial b := b == "B1"
  canClaimFiftyMoves _ := false
  canClaimThreefoldRepetition _ := false
  uciOf := id

/-- The empty registry. -/
def gm0 : GameManager := ⟨[]⟩

/-- The registry after `create_game(player_color="white", bot_elo=1500)`. -/
def gmCreated : GameManager :=
  match create_game toyRules gm0 "g1" "t0" "white" 1500 with
  | .ok (_, gm) => gm
  | .error _ => gm0

/-- The registry after additionally applying move `m1`: game `g1` now has
`status = "draw"` (insufficient material) while a legal move remains. -/
def gmDraw : GameManager := (apply_move toyRules gmCreated "g1" "m1").2

/-- The registry after instead applying move `mC` from the created game:
game `g1` now has `status = "checkmate"`, `winner = some "white"`. -/
def gmCheckmate : GameManager := (apply_move toyRules gmCreated "g1" "mC").2

/-- The session stored by `create_game toyRules gm0 "g1" "t0" "white" 1500`. -/
def gCreated : GameState :=
  { game_id := "g1", board_fen := "B0", player_color := "white", bot_elo := 1500,
    move_history := [], status := "ongoing", winner := none,
    current_turn := "white", created_at := "t0", last_move := none }

theorem create_game_eval :
    create_game toyRules gm0 "g1" "t0" "white" 1500 = .ok (gCreated, gmCreated) := rfl

theorem reachable_gmCreated : Reachable toyRules gmCreated :=
  Reachable.create .empty create_game_eval

theorem reachable_gmDraw : Reachable toyRules gmDraw :=
  Reachable.step "g1" "m1" reachable_gmCreated

theorem reachable_gmCheckmate : Reachable toyRules gmCheckmate :=
  Reachable.step "g1" "mC" reachable_gmCreated

/-- The session stored under "g1" in `gmCheckmate`. -/
def gCheckmate : GameState :=
  { game_id := "g1", board_fen := "BC", player_color := "white", bot_elo := 1500,
    move_history := ["mC"], status := "checkmate", winner := some "white",
    current_turn := "black", created_at := "t0", last_move := some "mC" }

/-- In the toy rules engine, as in chess, a checkmated position has no legal
moves. -/
theorem toy_checkmate_no_moves :
    ∀ b, toyRules.isCheckmate b = true → toyRules.legalMoves b = [] := by
  intro b h
  have hb : b = "BC" := eq_of_beq h
  subst hb; rfl

/-- In the toy rules engine, as in chess, a stalemated position has no legal
moves (vacuous: no toy position is stalemated). -/
theorem toy_stalemate_no_moves :
    ∀ b, toyRules.isStalemate b = true → toyRules.legalMoves b = [] := by
  intro b h
  exact Bool.noConfusion h

/-- The consistency conditions `apply_move` maintains for every stored
session: its FEN encodes some rules-engine state, a stored terminal status is
witnessed by the encoded state, and a non-`none` winner occurs only with
status `"checkmate"`. -/
def StatusInv {B M : Type} (R : Rules B M) (g : GameState) : Prop :=
  ∃ b : B, g.board_fen = R.fen b ∧
    (g.status = "checkmate" → R.isCheckmate b = true) ∧
    (g.status = "stalemate" → R.isStalemate b = true) ∧
    (g.winner ≠ none → g.status = "checkmate")

/-- Every session of a reachable registry satisfies `StatusInv`, given that
the rules engine round-trips FEN and that checkmate positions have no legal
moves (facts of the external chess library). -/
theorem reachable_statusInv {B M : Type} [DecidableEq M] (R : Rules B M)
    (Hrt : ∀ b, R.fromFen (R.fen b) = some b)
    (Hcm : ∀ b, R.isCheckmate b = true → R.legalMoves b = [])
    {gm : GameManager} (h : Reachable R gm) :
    ∀ gid g, List.lookup gid gm.games = some g → StatusInv R g := by
  induction h with
  | empty => intro gid g hg; simp at hg
  | create hr hc ih =>
    rename_i gm1 gid0 ts color elo g0 gm'
    intro gid g hg
    unfold create_game at hc
    split at hc
    · rw [Except.ok.injEq, Prod.mk.injEq] at hc
      obtain ⟨h1, h2⟩ := hc
      subst h2
      rw [List.lookup_cons] at hg
      split at hg
      · obtain rfl : _ = g := Option.some.injEq .. ▸ hg
        exact ⟨R.initialBoard, rfl, by intro hs; simp at hs,
          by intro hs; simp at hs,
          by intro hw; exact absurd rfl hw⟩
      · exact ih gid g hg
    · exact Except.noConfusion hc
  | step gid0 uci hr ih =>
    rename_i gm1
    intro gid g hg
    cases hlk : List.lookup gid0 gm1.games with
    | none => simp only [apply_move, hlk] at hg; exact ih gid g hg
    | some g00 =>
      cases hb : R.fromFen g00.board_fen with
      | none => simp only [apply_move, hlk, hb] at hg; exact ih gid g hg
      | some b0 =>
        cases hmv : R.parseUci uci with
        | none => simp only [apply_move, hlk, hb, hmv] at hg; exact ih gid g hg
        | some mv =>
          by_cases hmem : mv ∈ R.legalMoves b0
          · simp only [apply_move, hlk, hb, hmv, if_pos hmem] at hg
            rw [List.lookup_cons] at hg
            split at hg
            · obtain rfl : _ = g := Option.some.injEq .. ▸ hg
              unfold update_game_status
              split
              · next h1 =>
                exact ⟨R.push b0 mv, rfl, fun _ => h1,
                  by intro hs; simp at hs, fun _ => rfl⟩
              · split
                · next h2 =>
                  exact ⟨R.push b0 mv, rfl,
                    by intro hs; simp at hs, fun _ => h2,
                    by intro hw; exact absurd rfl hw⟩
                · split
                  · exact ⟨R.push b0 mv, rfl,
                      by intro hs; simp at hs,
                      by intro hs; simp at hs,
                      by intro hw; exact absurd rfl hw⟩
                  · split
                    · exact ⟨R.push b0 mv, rfl,
                        by intro hs; simp at hs,
                        by intro hs; simp at hs,
                        by intro hw; exact absurd rfl hw⟩
                    · split
                      · exact ⟨R.push b0 mv, rfl,
                          by intro hs; simp at hs,
                          by intro hs; simp at hs,
                          by intro hw; exact absurd rfl hw⟩
                      · refine ⟨R.push b0 mv, rfl,
                          by intro hs; simp at hs,
                          by intro hs; simp at hs, ?_⟩
                        intro hw
                        exfalso
                        obtain ⟨b', hfen, hcm', _, hwstat⟩ := ih gid0 g00 hlk
                        have hst : g00.status = "checkmate" := hwstat hw
                        have hmate : R.isCheckmate b' = true := hcm' hst
                        rw [hfen, Hrt b'] at hb
                        obtain rfl : b' = b0 := Option.some.injEq .. ▸ hb
                        rw [Hcm b' hmate] at hmem
                        simp at hmem
            · exact ih gid g hg
          · simp only [apply_move, hlk, hb, hmv, if_neg hmem] at hg
            exact ih gid g hg

/-- C1 (amended theorem): after checkmate or stalemate the stored position
admits no legal moves, so every subsequent `apply_move` on the session
returns `false` and leaves the registry unchanged.  (After a draw status the
rejection does not hold: see the counterexample.)  The hypotheses record the
chess facts the argument rests on: FEN round-trips, and checkmated or
stalemated positions have no legal moves. -/
theorem apply_move_rejected_after_mate_or_stalemate {B M : Type} [DecidableEq M]
    (R : Rules B M)
    (Hrt : ∀ b, R.fromFen (R.fen b) = some b)
    (Hcm : ∀ b, R.isCheckmate b = true → R.legalMoves b = [])
    (Hsm : ∀ b, R.isStalemate b = true → R.legalMoves b = [])
    {gm : GameManager} (hreach : Reachable R gm)
    (gid uci : String) (g : GameState)
    (hg : List.lookup gid gm.games = some g)
    (hst : g.status = "checkmate" ∨ g.status = "stalemate") :
    apply_move R gm gid uci = (false, gm) := by
  obtain ⟨b, hfen, hcm, hsm, -⟩ := reachable_statusInv R Hrt Hcm hreach gid g hg
  have hmoves : R.legalMoves b = [] := by
    rcases hst with h | h
    · exact Hcm b (hcm h)
    · exact Hsm b (hsm h)
  have hff : R.fromFen g.board_fen = some b := by rw [hfen]; exact Hrt b
  cases hmv : R.parseUci uci with
  | none => simp [apply_move, hg, hff, hmv]
  | some mv => simp [apply_move, hg, hff, hmv, hmoves]

/-- C1 (witness for the amended theorem): on the toy rules, a move sent to
the checkmated session is rejected without mutation. -/
theorem apply_move_rejected_after_mate_witness :
    apply_move toyRules gmCheckmate "g1" "m1" = (false, gmCheckmate) :=
  apply_move_rejected_after_mate_or_stalemate toyRules (fun _ => rfl)
    toy_checkmate_no_moves toy_stalemate_no_moves reachable_gmCheckmate
    "g1" "m1" gCheckmate (by decide) (Or.inl (by decide))

/-- C10: in every registry reachable by any sequence of `create_game` and
`apply_move` operations, a session's `winner` is non-`none` only when its
`status` is `"checkmate"`: creation stores `winner = none`, the checkmate
branch of `_update_game_status` is the only assignment of a winner, the
stalemate and draw branches reset it to `none`, and the ongoing branch can
only be reached with `winner = none`. -/
theorem winner_none_unless_checkmate {B M : Type} [DecidableEq M] (R : Rules B M)
    (Hrt : ∀ b, R.fromFen (R.fen b) = some b)
    (Hcm : ∀ b, R.isCheckmate b = true → R.legalMoves b = [])
    {gm : GameManager} (hreach : Reachable R gm)
    (gid : String) (g : GameState)
    (hg : List.lookup gid gm.games = some g) (hw : g.winner ≠ none) :
    g.status = "checkmate" := by
  obtain ⟨b, -, -, -, h4⟩ := reachable_statusInv R Hrt Hcm hreach gid g hg
  exact h4 hw

/-- C10 (witness): the toy checkmated session has a winner, and the theorem
yields its status. -/
theorem winner_none_unless_checkmate_witness : gCheckmate.status = "checkmate" :=
  winner_none_unless_checkmate toyRules (fun _ => rfl) toy_checkmate_no_moves
    reachable_gmCheckmate "g1" gCheckmate (by decide) (by decide)

/-- C1 (counterexample): a session reachable by create + applyMove whose
`status` is `"draw"` (insufficient material, as in a bare-kings position)
still admits a legal move, and `apply_move` — which never inspects
`game.status` (game_manager.py lines 108-135) — accepts that move, returns
`true` and mutates the session, contradicting the claim that every
`applyMove` on a non-ongoing session returns false without mutation. -/
theorem apply_move_accepts_move_after_draw :
    Reachable toyRules gmDraw ∧
    (List.lookup "g1" gmDraw.games).map (·.status) = some "draw" ∧
    (apply_move toyRules gmDraw "g1" "m2").1 = true ∧
    (apply_move toyRules gmDraw "g1" "m2").2 ≠ gmDraw ∧
    (List.lookup "g1" (apply_move toyRules gmDraw "g1" "m2").2.games).map
      (·.move_history) = some ["m1", "m2"] :=
  ⟨reachable_gmDraw, by decide⟩

/-- C2: `apply_move` fails closed.  For every game id and move string it
returns a boolean (the embedding is a total function: the source wraps the
fallible steps in `try/except` and returns `False`), and whenever the id is
unknown, the move string is unparsable, or the parsed move is not in the
legal-move set of the current position, it returns `false` and leaves the
whole registry — hence the session's position, history, turn and status —
exactly unchanged. -/
theorem apply_move_fails_closed {B M : Type} [DecidableEq M] (R : Rules B M)
    (gm : GameManager) (gid uci : String)
    (h : List.lookup gid gm.games = none
       ∨ R.parseUci uci = none
       ∨ ∃ g b mv, List.lookup gid gm.games = some g ∧
           R.fromFen g.board_fen = some b ∧ R.parseUci uci = some mv ∧
           mv ∉ R.legalMoves b) :
    apply_move R gm gid uci = (false, gm) := by
  rcases h with h | h | ⟨g, b, mv, hg, hb, hmv, hmem⟩
  · simp [apply_move, h]
  · cases hlk : List.lookup gid gm.games with
    | none => simp [apply_move, hlk]
    | some g =>
      cases hb : R.fromFen g.board_fen with
      | none => simp [apply_move, hlk, hb]
      | some b => simp [apply_move, hlk, hb, h]
  · simp [apply_move, hg, hb, hmv, hmem]

/-- C2 (witness): an unknown game id on the empty registry is rejected
without mutation. -/
theorem apply_move_fails_closed_witness :
    apply_move toyRules gm0 "nosuch" "e2e4" = (false, gm0) :=
  apply_move_fails_closed toyRules gm0 "nosuch" "e2e4" (Or.inl (by decide))

/-- C3: after every successful `apply_move`, the stored status is computed by
first match over the predicates in the order checkmate, stalemate,
insufficient material, fifty-move claimable, threefold claimable, otherwise
ongoing; on checkmate the winner is the side that just moved (the opposite
of the side to move in the resulting position), on stalemate and on every
draw the winner is `none`, and on ongoing the winner is untouched. -/
theorem apply_move_status_precedence {B M : Type} [DecidableEq M] (R : Rules B M)
    (gm gm' : GameManager) (gid uci : String)
    (h : apply_move R gm gid uci = (true, gm')) :
    ∃ (g0 : GameState) (b0 : B) (mv : M) (g' : GameState),
      List.lookup gid gm.games = some g0 ∧
      R.fromFen g0.board_fen = some b0 ∧
      R.parseUci uci = some mv ∧ mv ∈ R.legalMoves b0 ∧
      List.lookup gid gm'.games = some g' ∧
      (R.isCheckmate (R.push b0 mv) = true →
        g'.status = "checkmate" ∧
        g'.winner = some (if R.turnWhite (R.push b0 mv) then "black" else "white")) ∧
      (R.isCheckmate (R.push b0 mv) = false →
        R.isStalemate (R.push b0 mv) = true →
        g'.status = "stalemate" ∧ g'.winner = none) ∧
      (R.isCheckmate (R.push b0 mv) = false →
        R.isStalemate (R.push b0 mv) = false →
        R.isInsufficientMaterial (R.push b0 mv) = true →
        g'.status = "draw" ∧ g'.winner = none) ∧
      (R.isCheckmate (R.push b0 mv) = false →
        R.isStalemate (R.push b0 mv) = false →
        R.isInsufficientMaterial (R.push b0 mv) = false →
        R.canClaimFiftyMoves (R.push b0 mv) = true →
        g'.status = "draw" ∧ g'.winner = none) ∧
      (R.isCheckmate (R.push b0 mv) = false →
        R.isStalemate (R.push b0 mv) = false →
        R.isInsufficientMaterial (R.push b0 mv) = false →
        R.canClaimFiftyMoves (R.push b0 mv) = false →
        R.canClaimThreefoldRepetition (R.push b0 mv) = true →
        g'.status = "draw" ∧ g'.winner = none) ∧
      (R.isCheckmate (R.push b0 mv) = false →
        R.isStalemate (R.push b0 mv) = false →
        R.isInsufficientMaterial (R.push b0 mv) = false →
        R.canClaimFiftyMoves (R.push b0 mv) = false →
        R.canClaimThreefoldRepetition (R.push b0 mv) = false →
        g'.status = "ongoing" ∧ g'.winner = g0.winner) := by
  cases hlk : List.lookup gid gm.games with
  | none => simp [apply_move, hlk] at h
  | some g0 =>
    cases hb : R.fromFen g0.board_fen with
    | none => simp [apply_move, hlk, hb] at h
    | some b0 =>
      cases hmv : R.parseUci uci with
      | none => simp [apply_move, hlk, hb, hmv] at h
      | some mv =>
        by_cases hmem : mv ∈ R.legalMoves b0
        · simp only [apply_move, hlk, hb, hmv, if_pos hmem] at h
          have hgm' : gm' =
              ⟨(gid, update_game_status R
                  { g0 with
                      board_fen := R.fen (R.push b0 mv)
                      move_history := g0.move_history ++ [uci]
                      last_move := some uci
                      current_turn :=
                        if R.turnWhite (R.push b0 mv) then "white" else "black" }
                  (R.push b0 mv)) :: gm.games⟩ :=
            (congrArg Prod.snd h).symm
          subst hgm'
          refine ⟨g0, b0, mv, _, rfl, hb, rfl, hmem, List.lookup_cons_self, ?_, ?_, ?_,
            ?_, ?_, ?_⟩
          · intro hcm
            simp [update_game_status, hcm]
          · intro hcm hsm
            simp [update_game_status, hcm, hsm]
          · intro hcm hsm him
            simp [update_game_status, hcm, hsm, him]
          · intro hcm hsm him h50
            simp [update_game_status, hcm, hsm, him, h50]
          · intro hcm hsm him h50 h3
            simp [update_game_status, hcm, hsm, him, h50, h3]
          · intro hcm hsm him h50 h3
            simp [update_game_status, hcm, hsm, him, h50, h3]
        · simp [apply_move, hlk, hb, hmv, hmem] at h

/-- C3 (witness): instantiated on the toy rules at the checkmating move. -/
theorem apply_move_status_precedence_witness :
    ∃ (g0 : GameState) (b0 : String) (mv : String) (g' : GameState),
      List.lookup "g1" gmCreated.games = some g0 ∧
      toyRules.fromFen g0.board_fen = some b0 ∧
      toyRules.parseUci "mC" = some mv ∧ mv ∈ toyRules.legalMoves b0 ∧
      List.lookup "g1" gmCheckmate.games = some g' ∧
      (toyRules.isCheckmate (toyRules.push b0 mv) = true →
        g'.status = "checkmate" ∧
        g'.winner =
          some (if toyRules.turnWhite (toyRules.push b0 mv) then "black" else "white")) ∧
      (toyRules.isCheckmate (toyRules.push b0 mv) = false →
        toyRules.isStalemate (toyRules.push b0 mv) = true →
        g'.status = "stalemate" ∧ g'.winner = none) ∧
      (toyRules.isCheckmate (toyRules.push b0 mv) = false →
        toyRules.isStalemate (toyRules.push b0 mv) = false →
        toyRules.isInsufficientMaterial (toyRules.push b0 mv) = true →
        g'.status = "draw" ∧ g'.winner = none) ∧
      (toyRules.isCheckmate (toyRules.push b0 mv) = false →
        toyRules.isStalemate (toyRules.push b0 mv) = false →
        toyRules.isInsufficientMaterial (toyRules.push b0 mv) = false →
        toyRules.canClaimFiftyMoves (toyRules.push b0 mv) = true →
        g'.status = "draw" ∧ g'.winner = none) ∧
      (toyRules.isCheckmate (toyRules.push b0 mv) = false →
        toyRules.isStalemate (toyRules.push b0 mv) = false →
        toyRules.isInsufficientMaterial (toyRules.push b0 mv) = false →
        toyRules.canClaimFiftyMoves (toyRules.push b0 mv) = false →
        toyRules.canClaimThreefoldRepetition (toyRules.push b0 mv) = true →
        g'.status = "draw" ∧ g'.winner = none) ∧
      (toyRules.isCheckmate (toyRules.push b0 mv) = false →
        toyRules.isStalemate (toyRules.push b0 mv) = false →
        toyRules.isInsufficientMaterial (toyRules.push b0 mv) = false →
        toyRules.canClaimFiftyMoves (toyRules.push b0 mv) = false →
        toyRules.canClaimThreefoldRepetition (toyRules.push b0 mv) = false →
        g'.status = "ongoing" ∧ g'.winner = g0.winner) :=
  apply_move_status_precedence toyRules gmCreated gmCheckmate "g1" "mC" (by decide)

/-- Python `int(x)` applied to a nonnegative-or-negative real result:
truncation toward zero, modelled on exact rationals. -/
def pyInt (v : ℚ) : Int := if 0 ≤ v then ⌊v⌋ else ⌈v⌉

/-- `StockfishEngine._elo_to_skill` (stockfish_engine.py lines 106-118):
`int((elo_rating - 1320) / (3000 - 1320) * 20)` clamped to [0, 20].  The
float arithmetic is modelled exactly over `ℚ`. -/
def elo_to_skill (elo_rating : Int) : Int :=
  max 0 (min 20
    (pyInt (((elo_rating - MIN_ELO : Int) : ℚ) / ((MAX_ELO - MIN_ELO : Int) : ℚ) * 20)))

/-- Follows the words of the spec (section 4.2) for comparison with
`elo_to_skill`: level = round((rating − 1320) / (3000 − 1320) × 20), clamped
to [0, 20], rounding to nearest. -/
def elo_to_skill_spec (rating : Int) : Int :=
  max 0 (min 20 (round (((rating - 1320 : Int) : ℚ) / ((3000 - 1320 : Int) : ℚ) * 20)))

/-- C5 (counterexample): at rating 1400 the conversion value is 20/21; the
code's `int()` truncation gives skill 0 while the spec's round-to-nearest
formula gives 1, so the conversion does not equal the claimed rounding
formula. -/
theorem elo_to_skill_differs_from_round_spec :
    elo_to_skill 1400 = 0 ∧ elo_to_skill_spec 1400 = 1 ∧
    elo_to_skill 1400 ≠ elo_to_skill_spec 1400 := by
  refine ⟨?_, ?_, ?_⟩ <;>
    norm_num [elo_to_skill, elo_to_skill_spec, pyInt, MIN_ELO, MAX_ELO, round_eq,
      min_def, max_def]

/-- `pyInt` is monotone (floor and ceiling are monotone and agree in sign
across zero). -/
theorem pyInt_mono {a b : ℚ} (h : a ≤ b) : pyInt a ≤ pyInt b := by
  unfold pyInt
  split <;> split
  · exact Int.floor_le_floor h
  · next ha hb => exact absurd (le_trans ha h) hb
  · next ha hb =>
    have h1 : ⌈a⌉ ≤ (0 : ℤ) := Int.ceil_le.2 (by exact_mod_cast le_of_not_le ha)
    have h2 : (0 : ℤ) ≤ ⌊b⌋ := Int.floor_nonneg.2 hb
    omega
  · exact Int.ceil_le_ceil h

/-- C5 (amended theorem): on [1320, 3000] the rating-to-level conversion is
the floor (Python `int()` truncation, not round-to-nearest) of
(rating − 1320) / 1680 × 20, the clamp to [0, 20] never binds there, and the
conversion is monotone: r1 ≤ r2 implies level(r1) ≤ level(r2). -/
theorem elo_to_skill_floor_monotone :
    (∀ r : Int, 1320 ≤ r → r ≤ 3000 →
      elo_to_skill r = ⌊((r - 1320 : Int) : ℚ) / 1680 * 20⌋ ∧
      0 ≤ elo_to_skill r ∧ elo_to_skill r ≤ 20) ∧
    (∀ r1 r2 : Int, r1 ≤ r2 → elo_to_skill r1 ≤ elo_to_skill r2) := by
  have hform : ∀ r : Int,
      elo_to_skill r = max 0 (min 20 (pyInt (((r - 1320 : Int) : ℚ) / 1680 * 20))) := by
    intro r
    simp only [elo_to_skill, MIN_ELO, MAX_ELO]
    norm_num
  constructor
  · intro r h1 h2
    have hv0 : (0 : ℚ) ≤ ((r - 1320 : Int) : ℚ) / 1680 * 20 := by
      apply mul_nonneg _ (by norm_num)
      apply div_nonneg _ (by norm_num)
      exact_mod_cast (by omega : (0 : Int) ≤ r - 1320)
    have hv20 : ((r - 1320 : Int) : ℚ) / 1680 * 20 ≤ 20 := by
      have hc : ((r - 1320 : Int) : ℚ) ≤ 1680 := by
        exact_mod_cast (by omega : (r - 1320 : Int) ≤ 1680)
      rw [div_mul_eq_mul_div, div_le_iff₀ (by norm_num)]
      nlinarith
    have hfl0 : 0 ≤ ⌊((r - 1320 : Int) : ℚ) / 1680 * 20⌋ := by
      exact Int.le_floor.2 (by exact_mod_cast hv0)
    have hfl20 : ⌊((r - 1320 : Int) : ℚ) / 1680 * 20⌋ ≤ 20 := by
      calc ⌊((r - 1320 : Int) : ℚ) / 1680 * 20⌋ ≤ ⌊(20 : ℚ)⌋ := Int.floor_le_floor hv20
        _ = 20 := by norm_num
    rw [hform, pyInt, if_pos hv0, min_eq_right hfl20, max_eq_right hfl0]
    exact ⟨rfl, hfl0, hfl20⟩
  · intro r1 r2 h
    rw [hform, hform]
    have hc : ((r1 - 1320 : Int) : ℚ) ≤ ((r2 - 1320 : Int) : ℚ) := by
      exact_mod_cast (by omega : (r1 - 1320 : Int) ≤ r2 - 1320)
    have hv : ((r1 - 1320 : Int) : ℚ) / 1680 * 20 ≤ ((r2 - 1320 : Int) : ℚ) / 1680 * 20 := by
      apply mul_le_mul_of_nonneg_right _ (by norm_num)
      exact (div_le_div_iff_of_pos_right (by norm_num)).2 hc
    exact max_le_max le_rfl (min_le_min le_rfl (pyInt_mono hv))

/-- C5 (witness for the amended theorem). -/
theorem elo_to_skill_floor_monotone_witness :
    elo_to_skill 1400 = ⌊((1400 - 1320 : Int) : ℚ) / 1680 * 20⌋ ∧
    elo_to_skill 1400 ≤ elo_to_skill 2000 :=
  ⟨(elo_to_skill_floor_monotone.1 1400 (by norm_num) (by norm_num)).1,
   elo_to_skill_floor_monotone.2 1400 2000 (by norm_num)⟩

/-- The clamp at the top of `StockfishEngine.get_best_move` (line 61):
`max(MIN_ELO, min(MAX_ELO, elo_rating))`. -/
def clamp_elo (elo_rating : Int) : Int := max MIN_ELO (min MAX_ELO elo_rating)

/-- The engine options passed to `self.engine.configure` by `get_best_move`
(stockfish_engine.py lines 66-79). -/
structure EngineOptions where
  skillLevel : Int
  uciLimitStrength : Bool
  uciElo : Option Int
deriving DecidableEq, Repr

/-- The configuration branch of `get_best_move` (lines 66-79): at
`MAX_ELO` and above (after clamping, exactly 3000) configure maximum
strength with `UCI_LimitStrength` off and no `UCI_Elo`; below it configure
limited strength. -/
def engine_options_for (elo_rating : Int) : EngineOptions :=
  let e := clamp_elo elo_rating
  if e ≥ MAX_ELO then
    { skillLevel := 20, uciLimitStrength := false, uciElo := none }
  else
    { skillLevel := elo_to_skill e, uciLimitStrength := true, uciElo := some e }

/-- C6: for every requested rating, if the clamped rating is at the maximum
(3000) the engine is configured in full-strength mode with the
strength-limiting feature disabled (never the limited configuration pinned
at level 20), and for every clamped rating strictly below 3000 the
limited-strength configuration is used. -/
theorem full_strength_iff_max_rating :
    ∀ elo_rating : Int,
      (3000 ≤ clamp_elo elo_rating →
        engine_options_for elo_rating =
          { skillLevel := 20, uciLimitStrength := false, uciElo := none }) ∧
      (clamp_elo elo_rating < 3000 →
        engine_options_for elo_rating =
          { skillLevel := elo_to_skill (clamp_elo elo_rating),
            uciLimitStrength := true, uciElo := some (clamp_elo elo_rating) } ∧
        (engine_options_for elo_rating).uciLimitStrength = true) := by
  intro elo
  constructor
  · intro h
    simp only [engine_options_for]
    rw [if_pos (show clamp_elo elo ≥ MAX_ELO from h)]
  · intro h
    simp only [engine_options_for]
    rw [if_neg (show ¬clamp_elo elo ≥ MAX_ELO from not_le.2 h)]
    exact ⟨rfl, rfl⟩

/-- C6 (witness): a request above the range is clamped to 3000 and gets the
unlimited configuration; a mid-range request gets the limited one. -/
theorem full_strength_iff_max_rating_witness :
    engine_options_for 3500 =
      { skillLevel := 20, uciLimitStrength := false, uciElo := none } ∧
    engine_options_for 2000 =
      { skillLevel := elo_to_skill (clamp_elo 2000), uciLimitStrength := true,
        uciElo := some (clamp_elo 2000) } :=
  ⟨(full_strength_iff_max_rating 3500).1 (by decide),
   ((full_strength_iff_max_rating 2000).2 (by decide)).1⟩

/-- The time-budget adjustment of `get_best_move` (stockfish_engine.py lines
81-84): `rating_factor = (elo - MIN_ELO) / (MAX_ELO - MIN_ELO)`;
`adjusted_time = move_time * (1 + rating_factor * 0.5)`, on the clamped
rating.  Floats are modelled exactly over `ℚ`. -/
def adjusted_time (elo_rating : Int) (move_time : ℚ) : ℚ :=
  let e := clamp_elo elo_rating
  let rating_factor : ℚ := ((e - MIN_ELO : Int) : ℚ) / ((MAX_ELO - MIN_ELO : Int) : ℚ)
  move_time * (1 + rating_factor * (1 / 2))

/-- C7: for every positive base time budget, the adjusted thinking time is
an affine, strictly increasing function of the clamped strength rating,
equal to the base budget at the minimum rating 1320 and to exactly 1.5
times the base budget at the maximum rating 3000. -/
theorem adjusted_time_linear_monotone (base : ℚ) (hbase : 0 < base) :
    adjusted_time 1320 base = base ∧
    adjusted_time 3000 base = 3 / 2 * base ∧
    (∀ e1 e2 : Int, clamp_elo e1 < clamp_elo e2 →
      adjusted_time e1 base < adjusted_time e2 base) ∧
    (∀ e : Int, adjusted_time e base =
      base + base * (((clamp_elo e - 1320 : Int) : ℚ) / 3360)) := by
  have hform : ∀ e : Int, adjusted_time e base =
      base * (1 + ((clamp_elo e - 1320 : Int) : ℚ) / 1680 * (1 / 2)) := by
    intro e
    simp only [adjusted_time, MIN_ELO, MAX_ELO]
    norm_num
  have h1320 : clamp_elo 1320 = 1320 := by decide
  have h3000 : clamp_elo 3000 = 3000 := by decide
  refine ⟨?_, ?_, ?_, ?_⟩
  · rw [hform, h1320]; norm_num
  · rw [hform, h3000]; norm_num; ring
  · intro e1 e2 h
    rw [hform, hform]
    have hc : ((clamp_elo e1 - 1320 : Int) : ℚ) < ((clamp_elo e2 - 1320 : Int) : ℚ) := by
      exact_mod_cast (by omega : (clamp_elo e1 - 1320 : Int) < clamp_elo e2 - 1320)
    have key : ((clamp_elo e1 - 1320 : Int) : ℚ) / 1680 * (1 / 2) <
        ((clamp_elo e2 - 1320 : Int) : ℚ) / 1680 * (1 / 2) := by
      apply mul_lt_mul_of_pos_right _ (by norm_num)
      exact (div_lt_div_iff_of_pos_right (by norm_num)).2 hc
    exact mul_lt_mul_of_pos_left (by linarith) hbase
  · intro e
    rw [hform]; ring

/-- C7 (witness). -/
theorem adjusted_time_linear_monotone_witness :
    adjusted_time 1320 1 = 1 ∧ adjusted_time 1500 1 < adjusted_time 2000 1 :=
  ⟨(adjusted_time_linear_monotone 1 (by norm_num)).1,
   (adjusted_time_linear_monotone 1 (by norm_num)).2.2.1 1500 2000 (by decide)⟩

/-- The shape of `self.engine.play`'s result that `get_best_move` inspects:
the returned move (None on protocol failure), whether the info dict carries
a score, and `score.relative.score()` — the centipawn value relative to the
side to move, or None for a mate score. -/
structure PlayResult (M : Type) where
  move : Option M
  hasScoreInfo : Bool
  relativeScore : Option Int
deriving DecidableEq, Repr

/-- The score extraction of `get_best_move` (stockfish_engine.py lines
97-103): `score_cp = score.relative.score()` when the info dict has a
score — the mover-relative value, with no sign normalization — else None. -/
def extract_score_cp {M : Type} (result : PlayResult M) : Option Int :=
  if result.hasScoreInfo then result.relativeScore else none

/-- `StockfishEngine.get_best_move` (stockfish_engine.py lines 40-104): clamp
the rating, configure the engine, compute the adjusted time, play, raise if
the engine returned no move, and extract the mover-relative score.  The
external engine process is the function argument `play`; the returned tuple
also records the configuration and time limit used. -/
def get_best_move {M : Type} (elo_rating : Int) (move_time : ℚ)
    (play : EngineOptions → ℚ → PlayResult M) :
    Except String (EngineOptions × ℚ × M × Option Int) :=
  let opts := engine_options_for elo_rating
  let t := adjusted_time elo_rating move_time
  let result := play opts t
  match result.move with
  | none => .error "Stockfish failed to generate a move"
  | some mv => .ok (opts, t, mv, extract_score_cp result)

/-- `StockfishEngine.get_evaluation` (stockfish_engine.py lines 120-142):
when the analysis info carries a score and it is a centipawn value, return
it sign-flipped when black is to move (positive favors white); otherwise
None. -/
def get_evaluation (turnWhite : Bool) (analysisHasScore : Bool)
    (relativeScore : Option Int) : Option Int :=
  if analysisHasScore then
    match relativeScore with
    | some score => some (if turnWhite then score else -score)
    | none => none
  else none

/-- C8 (counterexample): for one and the same engine report — black (the
second mover) to move, mover-relative score +100 — `get_evaluation` returns
the normalized −100, but the `score_cp` returned by `get_best_move` (which
`player_move` forwards as the response's `evaluation` field) is the raw
+100: the evaluation attached to a move response is not normalized to
first-mover-positive. -/
theorem move_response_score_not_normalized :
    get_evaluation false true (some 100) = some (-100) ∧
    extract_score_cp (M := String) ⟨some "e7e5", true, some 100⟩ = some 100 ∧
    (get_best_move (M := String) 1500 (1 / 5)
        (fun _ _ => ⟨some "e7e5", true, some 100⟩)).map (fun r => r.2.2.2) =
      .ok (some 100) ∧
    some (100 : Int) ≠ some (-100 : Int) :=
  ⟨rfl, rfl, rfl, by decide⟩

/-- C8 (amended theorem): the `evaluate` path (`get_evaluation`) is
normalized — the mover-relative score is returned unchanged with white
(first mover) to move, negated with black to move, and `none` when the
engine provides no score — while the evaluation of a move response
(`get_best_move`'s extraction) is the mover-relative score passed through
with no sign flip. -/
theorem evaluation_normalized_only_in_evaluate :
    (∀ s : Int, get_evaluation true true (some s) = some s) ∧
    (∀ s : Int, get_evaluation false true (some s) = some (-s)) ∧
    (∀ t : Bool, get_evaluation t true none = none) ∧
    (∀ (t : Bool) (s : Option Int), get_evaluation t false s = none) ∧
    (∀ (mv : Option String) (rel : Option Int),
      extract_score_cp ⟨mv, true, rel⟩ = rel) ∧
    (∀ (mv : Option String) (rel : Option Int),
      extract_score_cp ⟨mv, false, rel⟩ = none) :=
  ⟨fun _ => rfl, fun _ => rfl, fun _ => rfl, fun _ _ => rfl,
   fun _ _ => rfl, fun _ _ => rfl⟩

/-- Modelled from the spec: the section 4.2 level-to-rating conversion,
`rating = 1320 + level × 84`.  No such conversion exists anywhere in the
code: `main.py` passes the 0-20 `bot_level` of the request directly to
`create_game`, which clamps it into [1320, 3000]. -/
def level_to_rating_spec (level : Int) : Int := 1320 + level * 84

/-- C4 (code evaluated at the failing input): a session started with a bad
side is rejected, but `start_game(player_color="white", bot_level=5)`
reaches `create_game(..., 5)`, which clamps 5 to `MIN_ELO = 1320` — every
level from 0 to 20 collapses to 1320 — instead of normalizing level 5 to
rating 1740 as the spec requires, so the created session does not carry a
normalized strength. -/
theorem create_game_clamps_level_to_min_elo :
    (create_game toyRules gm0 "g1" "t0" "purple" 5).toOption = none ∧
    (create_game toyRules gm0 "g1" "t0" "white" 5).toOption.map
      (fun p => p.1.bot_elo) = some 1320 ∧
    (create_game toyRules gm0 "g1" "t0" "white" 0).toOption.map
      (fun p => p.1.bot_elo) = some 1320 ∧
    (create_game toyRules gm0 "g1" "t0" "white" 20).toOption.map
      (fun p => p.1.bot_elo) = some 1320 ∧
    level_to_rating_spec 5 = 1740 ∧ (1320 : Int) ≠ 1740 := by
  decide

/-- The `StartGameResponse` model of `main.py` (lines 119-125). -/
structure StartGameResponse where
  game_id : String
  board_fen : String
  current_turn : String
  player_color : String
  bot_level : Int
  bot_move : Option String
deriving DecidableEq, Repr

/-- The `/start_game` handler of `main.py` (lines 173-218).  After
`create_game` succeeds, the handler builds `response_data`, which reads
`game.bot_level` (line 196); the `GameState` dataclass defines `bot_elo`
and has no `bot_level` attribute, so that attribute access raises
`AttributeError` before the engine-move branch for black (lines 200-211)
can run, and the handler's `except` maps the exception to an HTTP 500. -/
def start_game {B M : Type} (R : Rules B M) (gm : GameManager)
    (game_id created_at : String) (player_color : String) (bot_level : Int) :
    Except String (StartGameResponse × GameManager) :=
  match create_game R gm game_id created_at player_color bot_level with
  | .error e => .error e
  | .ok (_game, _gm1) =>
    .error "AttributeError: GameState object has no attribute bot_level"

/-- C9 (code evaluated at the failing input): for every valid request —
in particular `player_color="black"`, where the claim expects one engine
move to be applied before the response returns — `start_game` fails with
the `AttributeError` 500 while building the response, before any engine
move is requested; no session with a non-empty `lastMove` is ever
returned. -/
theorem start_game_always_raises_attribute_error :
    ∀ (gm : GameManager) (gid ts : String) (level : Int),
      start_game toyRules gm gid ts "black" level =
        .error "AttributeError: GameState object has no attribute bot_level" ∧
      start_game toyRules gm gid ts "white" level =
        .error "AttributeError: GameState object has no attribute bot_level" := by
  intro gm gid ts level
  exact ⟨rfl, rfl⟩

end PlayChess
